import Mathlib

/-!
Verification of the lobe-vidol virtual-human render-stream pipeline.

The development shallowly embeds the pipeline's core TypeScript modules:

* `SegmentationModule` (batch sentence segmentation with emotion tagging),
* `SmartSentenceSegmenter` (streaming chunk accumulator),
* `GenerationModule` (render-instruction generation from a segment plus
  bounded history),
* `VirtualHumanController` (state machine, history store, error recovery)
  together with `VirtualHumanFactory` configurations and the
  `CameraModeAdapter` re-entrancy guard.

Text is modelled as `List Char`; JavaScript string helpers (`trim`,
`includes`, regex splitting) are modelled by executable Lean functions on
character lists. Asynchronous calls are modelled by explicit state passing:
a controller run returns the successor state, the emitted event list, the
delays of any scheduled timers, and an `Except` value standing for normal
return versus a thrown error. The non-deterministic inputs of the original
code (the `Math.random()` motion pick, `Date.now()`, generated stream ids,
and the outcome of the transition module) are passed in explicitly.
-/

/-! ### Character classes and string helpers -/

/-- The hard sentence boundary set of `SegmentationModule.splitIntoSentences`
(the regex character class `[。！？；\n]`). -/
def isHardBoundary (c : Char) : Bool :=
  c == '。' || c == '！' || c == '？' || c == '；' || c == '\n'

/-- Whitespace as removed by JavaScript `trim`/`trimStart` (restricted to the
whitespace characters that can actually occur here). -/
def isWhitespaceChar (c : Char) : Bool :=
  c == ' ' || c == '\n' || c == '\t' || c == '\r'

/-- JavaScript `String.prototype.trim`. -/
def trimList (l : List Char) : List Char :=
  ((l.dropWhile isWhitespaceChar).reverse.dropWhile isWhitespaceChar).reverse

/-- JavaScript `String.prototype.trimStart`. -/
def trimStartList (l : List Char) : List Char :=
  l.dropWhile isWhitespaceChar

/-- The non-whitespace characters of a text, in order. -/
def nonWS (l : List Char) : List Char :=
  l.filter (fun c => !isWhitespaceChar c)

/-- Does `hay` begin with `needle`? -/
def leadsWith : List Char → List Char → Bool
  | _, [] => true
  | [], _ :: _ => false
  | c :: cs, n :: ns => c == n && leadsWith cs ns

/-- JavaScript `String.prototype.includes`: `needle` occurs contiguously in
`hay`. -/
def containsSeq (hay needle : List Char) : Bool :=
  match hay with
  | [] => needle.isEmpty
  | _ :: t => leadsWith hay needle || containsSeq t needle

/-! ### SegmentationModule (batch segmentation)

Embeds `src/libs/virtualHuman/modules/SegmentationModule.ts` with the
configuration installed by `VirtualHumanFactory.createController`. -/

/-- `SegmentationModule` config: `minSegmentLength`. -/
def minSegmentLength : Nat := 10

/-- `SegmentationModule` config: `maxSegmentLength`. -/
def maxSegmentLength : Nat := 100

/-- `SegmentationModule` config: `punctuationMarks`. -/
def punctuationMarks : List Char :=
  ['。', '！', '？', '；', '，', '.', '!', '?', ';', ',']

/-- `SegmentationModule` config: `emotionKeywords`, in insertion order
(`Object.entries` order; first match wins). -/
def emotionKeywords : List (List Char × String) :=
  [("开心".toList, "happy"), ("高兴".toList, "happy"), ("快乐".toList, "happy"),
   ("愤怒".toList, "angry"), ("生气".toList, "angry"),
   ("悲伤".toList, "sad"), ("难过".toList, "sad"),
   ("哭泣".toList, "cry"),
   ("惊讶".toList, "surprised"),
   ("害怕".toList, "fear"), ("恐惧".toList, "fear"),
   ("厌恶".toList, "disgust"), ("恶心".toList, "disgust")]

/-- `SentenceSegment` of `@/types/renderStream`. -/
structure SentenceSegment where
  text : List Char
  emotion : Option String
  emphasis : Bool
  pause : Nat
deriving DecidableEq, Repr

/-- One step of the global regex match `/[^。！？；\n]+[。！？；\n]*/g`:
positions where no match can start (leading boundary characters) are skipped;
a match is a maximal run of non-boundary characters followed by the maximal
run of boundary characters. `fuel` bounds the recursion (each step consumes
at least one character). -/
def splitIntoSentencesGo : Nat → List Char → List (List Char)
  | 0, _ => []
  | _, [] => []
  | fuel + 1, c :: cs =>
    if isHardBoundary c then
      splitIntoSentencesGo fuel cs
    else
      let body := (c :: cs).takeWhile (fun x => !isHardBoundary x)
      let rest := (c :: cs).dropWhile (fun x => !isHardBoundary x)
      let term := rest.takeWhile isHardBoundary
      (body ++ term) :: splitIntoSentencesGo fuel (rest.dropWhile isHardBoundary)

/-- The raw sentence candidates, before `trim`/empty filtering:
`text.match(/[^。！？；\n]+[。！？；\n]*/g) || []`. -/
def splitIntoSentencesRaw (text : List Char) : List (List Char) :=
  splitIntoSentencesGo text.length text

/-- `SegmentationModule.splitIntoSentences`. -/
def splitIntoSentences (text : List Char) : List (List Char) :=
  ((splitIntoSentencesRaw text).map trimList).filter (fun s => s.length != 0)

/-- `SegmentationModule.analyzeEmotion`: keyword table first (in order,
first match wins), then the `！/!`, `？/?` punctuation fallback, else
`neutral`. `toLowerCase` is the identity on the CJK keywords, so it is
modelled by `Char.toLower`. -/
def analyzeEmotion (text : List Char) : String :=
  let lower := text.map Char.toLower
  match emotionKeywords.find? (fun kv => containsSeq lower kv.1) with
  | some kv => kv.2
  | none =>
    if text.contains '！' || text.contains '!' then "surprised"
    else if text.contains '？' || text.contains '?' then "surprised"
    else "neutral"

/-- `SegmentationModule.hasEmphasis`. -/
def hasEmphasis (text : List Char) : Bool :=
  containsSeq text "**".toList || containsSeq text "__".toList ||
    text.contains '！' || text.contains '!'

/-- The per-mark weight of `SegmentationModule.calculatePause`. -/
def pauseWeight (mark : Char) : Nat :=
  if mark == '。' || mark == '.' then 500
  else if mark == '！' || mark == '!' then 300
  else if mark == '？' || mark == '?' then 400
  else if mark == '；' || mark == ';' then 200
  else if mark == '，' || mark == ',' then 100
  else 0

/-- `SegmentationModule.calculatePause`: sum over the punctuation table of
occurrence count times weight. -/
def calculatePause (text : List Char) : Nat :=
  punctuationMarks.foldl (fun acc mark => acc + text.count mark * pauseWeight mark) 0

/-- Builds the `SentenceSegment` record exactly as the module does. -/
def mkSegment (t : List Char) (emotion : String) : SentenceSegment :=
  ⟨t, some emotion, hasEmphasis t, calculatePause t⟩

/-- The character loop of `SegmentationModule.splitLongSentence`: accumulate
characters, cut after a punctuation mark once the current chunk has reached
`minSegmentLength`, and keep a trailing chunk whose `trim` is nonempty. -/
def splitLongChunks : List Char → List Char → List (List Char)
  | [], acc => if (trimList acc).isEmpty then [] else [acc]
  | c :: rest, acc =>
    let acc2 := acc ++ [c]
    if punctuationMarks.contains c ∧ minSegmentLength ≤ acc2.length then
      acc2 :: splitLongChunks rest []
    else
      splitLongChunks rest acc2

/-- `SegmentationModule.splitLongSentence`. -/
def splitLongSentence (sentence : List Char) (emotion : String) : List SentenceSegment :=
  (splitLongChunks sentence []).map (fun t => mkSegment t emotion)

/-- `SegmentationModule.segment`. -/
def segmentText (text : List Char) : List SentenceSegment :=
  (splitIntoSentences text).flatMap (fun s =>
    let emotion := analyzeEmotion s
    if maxSegmentLength < s.length then splitLongSentence s emotion
    else [mkSegment s emotion])

/-! ### SmartSentenceSegmenter (streaming chunk accumulator)

Embeds the `SmartSentenceSegmenter` class of the camera-mode integration
component. Its extraction regex is `/^(.+[\n~。！．？]|.{10,}[,、])/`. -/

/-- A character matched by the regex metacharacter `.` (anything but a line
terminator). -/
def isDotChar (c : Char) : Bool :=
  !(c == '\n' || c == '\r')

/-- The first alternative's terminator class `[\n~。！．？]`. -/
def isHardTerm (c : Char) : Bool :=
  c == '\n' || c == '~' || c == '。' || c == '！' || c == '．' || c == '？'

/-- The second alternative's terminator class `[,、]`. -/
def isSoftTerm (c : Char) : Bool :=
  c == ',' || c == '、'

/-- Greedy match of `^.+[\n~。！．？]` against `buf`: the engine lets `.+`
consume as much as possible (never past a line terminator) and backtracks,
so the result is the largest `j ≥ 1` with `buf[0..j)` all `.`-characters
and `buf[j]` in the terminator class; the match has length `j + 1`. -/
def matchEndAlt1 (buf : List Char) : Option Nat :=
  let k := (buf.takeWhile isDotChar).length
  (List.range (k + 1)).reverse.find? (fun j =>
    j != 0 && decide (j < buf.length) && isHardTerm (buf.getD j ' '))

/-- Greedy match of `^.{10,}[,、]` against `buf`, analogously. -/
def matchEndAlt2 (buf : List Char) : Option Nat :=
  let k := (buf.takeWhile isDotChar).length
  (List.range (k + 1)).reverse.find? (fun j =>
    decide (10 ≤ j) && decide (j < buf.length) && isSoftTerm (buf.getD j ' '))

/-- Length of the match of `/^(.+[\n~。！．？]|.{10,}[,、])/` against `buf`,
if any (the first alternative is preferred). -/
def extractMatchLen (buf : List Char) : Option Nat :=
  match matchEndAlt1 buf with
  | some j => some (j + 1)
  | none => (matchEndAlt2 buf).map (· + 1)

/-- `SmartSentenceSegmenter.extractCompleteSentences`: at most one sentence is
extracted per call; the remainder is kept, `trimStart`-ed. Returns the
emitted sentence list and the new `sentenceBuffer`. -/
def extractCompleteSentences (buf : List Char) : List (List Char) × List Char :=
  match extractMatchLen buf with
  | some n => ([buf.take n], trimStartList (buf.drop n))
  | none => ([], buf)

/-- The mutable state of `SmartSentenceSegmenter`. -/
structure SegmenterState where
  sentenceBuffer : List Char
  lastProcessedContent : List Char
deriving DecidableEq, Repr

/-- A freshly constructed (or `reset`) `SmartSentenceSegmenter`. -/
def initSegmenter : SegmenterState := ⟨[], []⟩

/-- `SmartSentenceSegmenter.processNewContent`. -/
def processNewContent (st : SegmenterState) (content : List Char) :
    List (List Char) × SegmenterState :=
  if content == st.lastProcessedContent then ([], st)
  else if content.length < st.lastProcessedContent.length then
    ([], ⟨[], content⟩)
  else
    let newContent := content.drop st.lastProcessedContent.length
    if newContent.isEmpty then ([], st)
    else
      let buf := st.sentenceBuffer ++ newContent
      let (ss, rest) := extractCompleteSentences buf
      (ss, ⟨rest, content⟩)

/-! ### Render-stream data model

Embeds `@/types/renderStream`. The camera mode is the five-value string
union `'空' | '智能镜头' | '跟踪-大脸' | '跟踪-背向' | '跟踪-朝向'`,
modelled as an enumeration. -/

/-- The camera-mode union type.  `kong` is `'空'` (none), `smartLens` is
`'智能镜头'`, `trackFace` is `'跟踪-大脸'`, `trackBack` is `'跟踪-背向'`,
`trackFront` is `'跟踪-朝向'`. -/
inductive Camera where
  | kong
  | smartLens
  | trackFace
  | trackBack
  | trackFront
deriving DecidableEq, Repr

/-- `RenderStream` as produced by the pipeline (the generator always fills
`expression`, `motion`, `camera`, `scene`, `background`). -/
structure RenderStream where
  text : List Char
  audio : Option String
  expression : String
  motion : List String
  camera : Camera
  scene : Option String
  background : Option String
  timestamp : Nat
  streamId : String
deriving DecidableEq, Repr

/-- `RenderStreamHistory`. -/
structure RenderStreamHistory where
  streams : List RenderStream
  currentIndex : Int
  maxHistory : Nat
deriving DecidableEq, Repr

/-- JavaScript `array.slice(-n)`: the last `n` elements (all of them when
`n` exceeds the length). -/
def lastN {α : Type} (n : Nat) (l : List α) : List α :=
  l.drop (l.length - n)

/-- The history as initialised in the `VirtualHumanController` constructor. -/
def initialHistory : RenderStreamHistory := ⟨[], -1, 50⟩

/-- `VirtualHumanController.addToHistory`: push, reset the cursor, then evict
the oldest entry (`shift`) and decrement the cursor when over capacity. -/
def addToHistory (h : RenderStreamHistory) (rs : RenderStream) : RenderStreamHistory :=
  let streams := h.streams ++ [rs]
  let ci : Int := (streams.length : Int) - 1
  if h.maxHistory < streams.length then
    { h with streams := streams.tail, currentIndex := ci - 1 }
  else
    { h with streams := streams, currentIndex := ci }

/-- `VirtualHumanController.clearHistory`. -/
def clearHistory (h : RenderStreamHistory) : RenderStreamHistory :=
  { h with streams := [], currentIndex := -1 }

/-- An abstract history-store operation (append or clear). -/
inductive HistOp where
  | add (rs : RenderStream)
  | clearOp
deriving Repr

/-- Interpreting a history-store operation. -/
def applyHistOp (h : RenderStreamHistory) : HistOp → RenderStreamHistory
  | .add rs => addToHistory h rs
  | .clearOp => clearHistory h

/-! ### GenerationModule

Embeds `src/libs/virtualHuman/modules/GenerationModule.ts` with the
configuration installed by the factory. The `Math.random()` motion pick is
passed in as `pick` (reduced modulo the motion-set size), `Date.now()` as
`now`, and the generated stream id as `rid`. -/

/-- `GenerationModule` config: `defaultExpression`. -/
def genDefaultExpression : String := "neutral"

/-- `GenerationModule` config: `defaultMotion`. -/
def genDefaultMotion : List String := ["idle"]

/-- `GenerationModule` config: `defaultCamera` (`'智能镜头'`). -/
def genDefaultCamera : Camera := Camera.smartLens

/-- `GenerationModule` config: `emotionToExpression`. -/
def emotionToExpression : List (String × String) :=
  [("happy", "smile"), ("angry", "angry"), ("sad", "sad"), ("cry", "cry"),
   ("surprised", "surprised"), ("fear", "fear"), ("disgust", "disgust"),
   ("neutral", "neutral")]

/-- `GenerationModule` config: `emotionToMotion`. -/
def emotionToMotion : List (String × List String) :=
  [("happy", ["wave", "dance"]), ("angry", ["fist", "point"]),
   ("sad", ["head_down", "sigh"]), ("cry", ["cry", "wipe_tears"]),
   ("surprised", ["jump", "hands_up"]), ("fear", ["shrink", "cover_face"]),
   ("disgust", ["turn_away", "cover_nose"]), ("neutral", ["idle", "look_around"])]

/-- Record-table lookup (`table[key]`). -/
def lookupStr {α : Type} (table : List (String × α)) (key : String) : Option α :=
  (table.find? (fun kv => kv.1 == key)).map (·.2)

/-- `segment.emotion || 'neutral'`: the JavaScript truthiness default. -/
def effectiveEmotion (segment : SentenceSegment) : String :=
  match segment.emotion with
  | some e => if e == "" then "neutral" else e
  | none => "neutral"

/-- `GenerationModule.mapEmotionToExpression`. -/
def mapEmotionToExpression (emotion : String) : String :=
  (lookupStr emotionToExpression emotion).getD genDefaultExpression

/-- `GenerationModule.mapEmotionToMotion`: one pick from the emotion's motion
set (`Math.floor(Math.random() * motions.length)` becomes `pick` modulo the
set size). -/
def mapEmotionToMotion (emotion : String) (pick : Nat) : List String :=
  let motions := (lookupStr emotionToMotion emotion).getD genDefaultMotion
  [motions.getD (pick % motions.length) ""]

/-- `GenerationModule.determineCameraMode`: emphasis, then emotion classes,
then reuse of the camera of the last history entry (via `slice(-3)` and its
last element) unless it is `'空'`, else the configured default. -/
def determineCameraMode (segment : SentenceSegment) (history : RenderStreamHistory) : Camera :=
  if segment.emphasis then Camera.trackFace
  else if segment.emotion == some "surprised" || segment.emotion == some "fear" then
    Camera.trackFront
  else if segment.emotion == some "sad" || segment.emotion == some "cry" then
    Camera.trackBack
  else
    match (lastN 3 history.streams).getLast? with
    | some s => if s.camera != Camera.kong then s.camera else genDefaultCamera
    | none => genDefaultCamera

/-- JavaScript truthiness of the optional `scene` field. -/
def sceneTruthy : Option String → Bool
  | none => false
  | some s => s != ""

/-- `GenerationModule.determineScene`: keyword table on the lower-cased text,
else the scene of the first entry with a truthy scene among the last five
history entries, else `"default"`. -/
def determineScene (segment : SentenceSegment) (history : RenderStreamHistory) : String :=
  let lower := segment.text.map Char.toLower
  if containsSeq lower "办公室".toList || containsSeq lower "工作".toList then "office"
  else if containsSeq lower "家".toList || containsSeq lower "房间".toList then "home"
  else if containsSeq lower "公园".toList || containsSeq lower "户外".toList then "park"
  else if containsSeq lower "舞台".toList || containsSeq lower "表演".toList then "stage"
  else
    match (lastN 5 history.streams).find? (fun s => sceneTruthy s.scene) with
    | some s => s.scene.getD "default"
    | none => "default"

/-- `GenerationModule.determineBackground` (the history parameter of the
source is unused). -/
def determineBackground (segment : SentenceSegment) : String :=
  let emotion := effectiveEmotion segment
  if emotion == "happy" then "bright_bg"
  else if emotion == "sad" || emotion == "cry" then "dark_bg"
  else if emotion == "fear" then "mysterious_bg"
  else "neutral_bg"

/-- `GenerationModule.generate` (`generateAudio` always resolves to
`undefined` in the source). -/
def generate (segment : SentenceSegment) (history : RenderStreamHistory)
    (pick : Nat) (now : Nat) (rid : String) : RenderStream :=
  { text := segment.text
    audio := none
    expression := mapEmotionToExpression (effectiveEmotion segment)
    motion := mapEmotionToMotion (effectiveEmotion segment) pick
    camera := determineCameraMode segment history
    scene := some (determineScene segment history)
    background := some (determineBackground segment)
    timestamp := now
    streamId := rid }

/-- The camera channel as the specification words it: emphasis means
close-up tracking, surprised/fear front tracking, sad/cry back tracking,
otherwise the most recent history entry's camera is reused when it is not
`'空'`, else the configured default. -/
def cameraModeSpec (segment : SentenceSegment) (history : RenderStreamHistory) : Camera :=
  if segment.emphasis then Camera.trackFace
  else if segment.emotion == some "surprised" || segment.emotion == some "fear" then
    Camera.trackFront
  else if segment.emotion == some "sad" || segment.emotion == some "cry" then
    Camera.trackBack
  else
    match history.streams.getLast? with
    | some s => if s.camera != Camera.kong then s.camera else genDefaultCamera
    | none => genDefaultCamera

/-! ### VirtualHumanController and CameraModeAdapter

Embeds `VirtualHumanController` (state machine, event surface, error
recovery) and the adapter's re-entrancy guard. The transition module is an
oracle `TransitionFn` saying, for each instruction and history, whether the
simulated transition resolves or rejects (throws). -/

/-- `RenderStreamState`. -/
inductive RenderStreamState where
  | error
  | idle
  | processing
  | rendering
  | transitioning
deriving DecidableEq, Repr

/-- `VirtualHumanConfig`. -/
structure VirtualHumanConfig where
  enableSmartSegmentation : Bool
  enableSeamlessTransition : Bool
  enableEmotionAnalysis : Bool
  defaultExpression : String
  defaultMotion : List String
  defaultCamera : String
deriving DecidableEq, Repr

/-- The configuration of `VirtualHumanFactory.createDefaultController`
(seamless transition disabled). -/
def defaultConfig : VirtualHumanConfig :=
  ⟨true, false, true, "neutral", ["idle"], "智能镜头"⟩

/-- The configuration of `VirtualHumanFactory.createHighPerformanceController`
(seamless transition enabled). -/
def highPerfConfig : VirtualHumanConfig :=
  ⟨true, true, true, "neutral", ["idle"], "智能镜头"⟩

/-- Controller state: `state`, `history` and `config` of
`VirtualHumanController`. -/
structure Ctrl where
  state : RenderStreamState
  history : RenderStreamHistory
  config : VirtualHumanConfig
deriving DecidableEq, Repr

/-- A controller as returned by `VirtualHumanFactory.createDefaultController`. -/
def createDefaultController : Ctrl :=
  ⟨RenderStreamState.idle, initialHistory, defaultConfig⟩

/-- Events emitted by the controller during `processAIResponse`
(`moduleRegistered`, `configUpdated` and `historyCleared` do not occur
inside it and are omitted). The `errorEvt` payload is the thrown error and
the `context` field of the emitted `{ error, context }` object. -/
inductive CtrlEvent where
  | stateChanged (oldState newState : RenderStreamState)
  | aiResponseReceived (text : List Char)
  | renderStreamReady (stream : RenderStream)
  | aiResponseProcessed (text : List Char)
  | errorEvt (err : String) (context : String)
deriving DecidableEq, Repr

/-- The transition-module oracle: how
`TransitionModule.transition(renderStream, history)` resolves. -/
def TransitionFn : Type :=
  RenderStream → RenderStreamHistory → Except String Unit

/-- `VirtualHumanController.triggerSeamlessTransition`: with seamless
transition disabled, emit `renderStreamReady` immediately; otherwise enter
`Transitioning`, run the transition module, enter `Rendering`, and emit
`renderStreamReady` — a rejection propagates before `Rendering` is entered
and before the event is emitted. -/
def triggerSeamlessTransition (trans : TransitionFn) (c : Ctrl) (rs : RenderStream) :
    Ctrl × List CtrlEvent × Except String Unit :=
  if c.config.enableSeamlessTransition = false then
    (c, [CtrlEvent.renderStreamReady rs], Except.ok ())
  else
    let c1 : Ctrl := { c with state := RenderStreamState.transitioning }
    let evs1 := [CtrlEvent.stateChanged c.state RenderStreamState.transitioning]
    match trans rs c1.history with
    | Except.error e => (c1, evs1, Except.error e)
    | Except.ok _ =>
      ({ c1 with state := RenderStreamState.rendering },
       evs1 ++ [CtrlEvent.stateChanged RenderStreamState.transitioning RenderStreamState.rendering,
                CtrlEvent.renderStreamReady rs],
       Except.ok ())

/-- The per-segment loop of `processAIResponse`: generate, append to
history, trigger the transition; abort on the first rejection. `i` indexes
the segments so that each generation draws its own pick and stream id. -/
def runSegments (trans : TransitionFn) (picks : Nat → Nat) (now : Nat) (rid : Nat → String) :
    List SentenceSegment → Nat → Ctrl → Ctrl × List CtrlEvent × Except String Unit
  | [], _, c => (c, [], Except.ok ())
  | seg :: rest, i, c =>
    let rs := generate seg c.history (picks i) now (rid i)
    let c1 := { c with history := addToHistory c.history rs }
    match triggerSeamlessTransition trans c1 rs with
    | (c2, evs, Except.error e) => (c2, evs, Except.error e)
    | (c2, evs, Except.ok _) =>
      let out := runSegments trans picks now rid rest (i + 1) c2
      (out.1, evs ++ out.2.1, out.2.2)

/-- The result of one `processAIResponse` call: successor controller state,
emitted events in order, delays of the timers scheduled by the call, and
normal return versus thrown error. -/
structure PAROutput where
  ctrl : Ctrl
  events : List CtrlEvent
  timerDelays : List Nat
  result : Except String Unit

/-- The fallback segment of `VirtualHumanController.segmentText` when smart
segmentation is disabled. -/
def defaultSegmentOf (text : List Char) : SentenceSegment :=
  ⟨text, some "neutral", false, 0⟩

/-- `VirtualHumanController.segmentText` (the segmentation module is always
registered by the factory). -/
def controllerSegment (cfg : VirtualHumanConfig) (text : List Char) : List SentenceSegment :=
  if cfg.enableSmartSegmentation then segmentText text else [defaultSegmentOf text]

/-- `VirtualHumanController.processAIResponse`. Note that the method has no
guard on the current state: it unconditionally enters `Processing`. On an
error it enters `Error`, emits `error` with context `'processAIResponse'`,
schedules the 5000 ms recovery timer and re-throws. -/
def processAIResponse (c : Ctrl) (trans : TransitionFn) (picks : Nat → Nat)
    (now : Nat) (rid : Nat → String) (text : List Char) : PAROutput :=
  let evs0 := [CtrlEvent.stateChanged c.state RenderStreamState.processing,
               CtrlEvent.aiResponseReceived text]
  let c0 : Ctrl := { c with state := RenderStreamState.processing }
  let segs := controllerSegment c.config text
  match runSegments trans picks now rid segs 0 c0 with
  | (c1, evs1, Except.ok _) =>
    { ctrl := { c1 with state := RenderStreamState.idle }
      events := evs0 ++ evs1 ++
        [CtrlEvent.stateChanged c1.state RenderStreamState.idle,
         CtrlEvent.aiResponseProcessed text]
      timerDelays := []
      result := Except.ok () }
  | (c1, evs1, Except.error e) =>
    { ctrl := { c1 with state := RenderStreamState.error }
      events := evs0 ++ evs1 ++
        [CtrlEvent.stateChanged c1.state RenderStreamState.error,
         CtrlEvent.errorEvt e "processAIResponse"]
      timerDelays := [5000]
      result := Except.error e }

/-- The callback of the recovery timer scheduled in the `catch` block of
`processAIResponse`: reset to `Idle` exactly when the state is still
`Error` when the timer fires. -/
def errorRecoveryTick (c : Ctrl) : Ctrl :=
  if c.state == RenderStreamState.error then { c with state := RenderStreamState.idle }
  else c

/-- The adapter state relevant to re-entrancy: `CameraModeAdapter.isProcessing`
and the wrapped controller. -/
structure Adapter where
  isProcessing : Bool
  ctrl : Ctrl
deriving Repr

/-- `CameraModeAdapter.handleAIResponse`: while `isProcessing` is set the
call returns immediately without touching the controller; otherwise it runs
`processAIResponse` and clears the flag in the `finally` block whatever the
outcome. -/
def handleAIResponse (a : Adapter) (trans : TransitionFn) (picks : Nat → Nat)
    (now : Nat) (rid : Nat → String) (text : List Char) :
    Adapter × List CtrlEvent × Except String Unit :=
  if a.isProcessing then (a, [], Except.ok ())
  else
    let out := processAIResponse a.ctrl trans picks now rid text
    (⟨false, out.ctrl⟩, out.events, out.result)

/-! ### Helper functions for the theorems -/

/-- Is the event an `error` event? -/
def isErrorEvt : CtrlEvent → Bool
  | .errorEvt _ _ => true
  | _ => false

/-- Is the event a `renderStreamReady` event? -/
def isReadyEvt : CtrlEvent → Bool
  | .renderStreamReady _ => true
  | _ => false

/-- Is the event a state change into the given state? -/
def entersState (s : RenderStreamState) : CtrlEvent → Bool
  | .stateChanged _ n => n == s
  | _ => false

/-- A transition oracle that always resolves. -/
def okTransition : TransitionFn := fun _ _ => Except.ok ()

/-- A transition oracle that always rejects with the given message. -/
def failTransition (msg : String) : TransitionFn := fun _ _ => Except.error msg

/-- A fixed motion-pick source. -/
def zeroPicks : Nat → Nat := fun _ => 0

/-- A deterministic stream-id source. -/
def sidFn : Nat → String := fun i => "s" ++ toString i

/-- The instruction stream generated by a run of the per-segment loop:
instruction `i` is generated against the history left by instructions
`0, …, i-1`. -/
def genStreamsAux (picks : Nat → Nat) (now : Nat) (rid : Nat → String) :
    List SentenceSegment → Nat → RenderStreamHistory → List RenderStream
  | [], _, _ => []
  | seg :: rest, i, h =>
    let rs := generate seg h (picks i) now (rid i)
    rs :: genStreamsAux picks now rid rest (i + 1) (addToHistory h rs)

/-- A fixed instruction used to instantiate universally quantified
statements at concrete inputs. -/
def dummyStream : RenderStream :=
  ⟨"hi".toList, none, "neutral", ["idle"], Camera.smartLens, some "default",
   some "neutral_bg", 0, "s0"⟩

/-! ## Theorems -/

theorem dropWhile_length_le {α : Type} (p : α → Bool) (l : List α) :
    (l.dropWhile p).length ≤ l.length :=
  List.Sublist.length_le (List.dropWhile_sublist _)

theorem getLast?_lastN {α : Type} (n : Nat) (l : List α) (hn : 1 ≤ n) :
    (lastN n l).getLast? = l.getLast? := by
  unfold lastN
  rw [List.getLast?_drop]
  rcases l with _ | ⟨a, l⟩
  · simp
  · rw [if_neg (by simp [List.length_cons]; omega)]

theorem lastN_append_lastN {α : Type} (n : Nat) (a b : List α) :
    lastN n (lastN n a ++ b) = lastN n (a ++ b) := by
  unfold lastN
  rw [List.drop_append_eq_append_drop, List.drop_append_eq_append_drop, List.drop_drop]
  simp only [List.length_append, List.length_drop]
  congr 1
  · congr 1
    omega
  · congr 1
    omega

theorem lastN_append_right {α : Type} (n : Nat) (x y : List α) (h : n ≤ y.length) :
    lastN n (x ++ y) = lastN n y := by
  unfold lastN
  rw [List.length_append, List.drop_append_eq_append_drop]
  rw [List.drop_eq_nil_of_le (by omega)]
  rw [List.nil_append]
  congr 1
  omega

theorem lastN_of_le {α : Type} (n : Nat) (l : List α) (h : l.length ≤ n) :
    lastN n l = l := by
  unfold lastN
  rw [Nat.sub_eq_zero_of_le h, List.drop_zero]

/-- Claim C8: for every segment and every history snapshot, two calls of
`generate` with the identical segment and the identical history agree on
expression, camera, scene, and background, whatever the random pick, the
clock value and the generated id are — only the motion channel consumes the
random input. -/
theorem generate_deterministic_non_motion :
    ∀ (segment : SentenceSegment) (history : RenderStreamHistory)
      (p1 p2 n1 n2 : Nat) (r1 r2 : String),
      (generate segment history p1 n1 r1).expression
          = (generate segment history p2 n2 r2).expression ∧
      (generate segment history p1 n1 r1).camera
          = (generate segment history p2 n2 r2).camera ∧
      (generate segment history p1 n1 r1).scene
          = (generate segment history p2 n2 r2).scene ∧
      (generate segment history p1 n1 r1).background
          = (generate segment history p2 n2 r2).background :=
  fun _ _ _ _ _ _ _ _ => ⟨rfl, rfl, rfl, rfl⟩

/-- Claim C7: the camera channel of `generate` follows the priority order
emphasis, then surprised/fear, then sad/cry, then reuse of the most recent
history entry's camera when it is not `'空'` (hysteresis), else the
configured default — stated as equality with the specification-side
function `cameraModeSpec` — and in particular a history `[A, B]` whose two
entries carry the same camera `X ≠ '空'` makes a neutral, non-emphasized
segment keep camera `X`. -/
theorem camera_priority_with_hysteresis :
    (∀ (segment : SentenceSegment) (history : RenderStreamHistory),
      determineCameraMode segment history = cameraModeSpec segment history) ∧
    (∀ (A B : RenderStream) (X : Camera) (history : RenderStreamHistory)
       (seg : SentenceSegment),
      A.camera = X → B.camera = X → X ≠ Camera.kong →
      seg.emphasis = false → seg.emotion = some "neutral" →
      history.streams = [A, B] →
      determineCameraMode seg history = X) := by
  constructor
  · intro segment history
    unfold determineCameraMode cameraModeSpec
    rw [getLast?_lastN 3 history.streams (by omega)]
  · intro A B X history seg hA hB hX hemph hemo hstreams
    unfold determineCameraMode
    rw [hemph, hemo, hstreams]
    have h3 : lastN 3 [A, B] = [A, B] := lastN_of_le 3 [A, B] (by simp)
    rw [h3]
    simp only [List.getLast?_cons_cons, List.getLast?_singleton]
    have hbeq1 : ((some "neutral" == some "surprised") : Bool) = false := by decide
    have hbeq2 : ((some "neutral" == some "fear") : Bool) = false := by decide
    have hbeq3 : ((some "neutral" == some "sad") : Bool) = false := by decide
    have hbeq4 : ((some "neutral" == some "cry") : Bool) = false := by decide
    simp only [hbeq1, hbeq2, hbeq3, hbeq4, Bool.or_self, Bool.false_eq_true, if_false]
    rw [hB, if_pos (by simp [bne_iff_ne, hX])]

/-- Claim C7 witness: the hysteresis scenario at a concrete history of two
instructions with camera `'跟踪-大脸'` and a concrete neutral segment. -/
theorem camera_priority_with_hysteresis_witness :
    determineCameraMode ⟨"ok".toList, some "neutral", false, 0⟩
      ⟨[{ dummyStream with camera := Camera.trackFace },
        { dummyStream with camera := Camera.trackFace }], 1, 50⟩ = Camera.trackFace :=
  camera_priority_with_hysteresis.2
    { dummyStream with camera := Camera.trackFace }
    { dummyStream with camera := Camera.trackFace }
    Camera.trackFace _ _ rfl rfl (by decide) rfl rfl rfl

theorem addToHistory_maxHistory (h : RenderStreamHistory) (rs : RenderStream) :
    (addToHistory h rs).maxHistory = h.maxHistory := by
  unfold addToHistory
  dsimp only
  split <;> rfl

theorem addToHistory_wf (h : RenderStreamHistory) (rs : RenderStream)
    (hlen : h.streams.length ≤ 50) (hmax : h.maxHistory = 50) :
    (addToHistory h rs).streams.length ≤ 50 ∧
    (addToHistory h rs).currentIndex = ((addToHistory h rs).streams.length : Int) - 1 := by
  unfold addToHistory
  rw [hmax]
  by_cases hc : 50 < (h.streams ++ [rs]).length
  · rw [if_pos hc]
    simp only [List.length_append, List.length_singleton] at hc ⊢
    have h50 : h.streams.length = 50 := by omega
    constructor
    · simp [List.length_tail, h50]
    · simp [List.length_tail, h50]
  · rw [if_neg hc]
    simp only [List.length_append, List.length_singleton] at hc ⊢
    constructor
    · omega
    · simp

theorem addToHistory_streams (h : RenderStreamHistory) (rs : RenderStream)
    (hlen : h.streams.length ≤ 50) (hmax : h.maxHistory = 50) :
    (addToHistory h rs).streams = lastN 50 (h.streams ++ [rs]) := by
  unfold addToHistory
  rw [hmax]
  by_cases hc : 50 < (h.streams ++ [rs]).length
  · rw [if_pos hc]
    simp only [List.length_append, List.length_singleton] at hc
    have h50 : h.streams.length = 50 := by omega
    show (h.streams ++ [rs]).tail = lastN 50 (h.streams ++ [rs])
    unfold lastN
    rw [List.length_append, List.length_singleton, h50]
    rw [← List.drop_one]
  · rw [if_neg hc]
    simp only [List.length_append, List.length_singleton] at hc
    show h.streams ++ [rs] = lastN 50 (h.streams ++ [rs])
    rw [lastN_of_le 50 _ (by simp; omega)]

theorem foldl_addToHistory_streams (rss : List RenderStream) :
    ∀ h : RenderStreamHistory, h.streams.length ≤ 50 → h.maxHistory = 50 →
      (rss.foldl addToHistory h).streams = lastN 50 (h.streams ++ rss) := by
  induction rss with
  | nil =>
    intro h hlen hmax
    simp only [List.foldl_nil, List.append_nil]
    rw [lastN_of_le 50 _ hlen]
  | cons r rss ih =>
    intro h hlen hmax
    simp only [List.foldl_cons]
    have hwf := addToHistory_wf h r hlen hmax
    have hmax2 : (addToHistory h r).maxHistory = 50 := by
      rw [addToHistory_maxHistory, hmax]
    rw [ih (addToHistory h r) hwf.1 hmax2]
    rw [addToHistory_streams h r hlen hmax]
    rw [lastN_append_lastN]
    rw [List.append_assoc]
    rfl

theorem foldl_applyHistOp_wf (ops : List HistOp) :
    ∀ h : RenderStreamHistory,
      h.streams.length ≤ 50 → h.maxHistory = 50 →
      h.currentIndex = (h.streams.length : Int) - 1 →
      (ops.foldl applyHistOp h).streams.length ≤ 50 ∧
      (ops.foldl applyHistOp h).maxHistory = 50 ∧
      (ops.foldl applyHistOp h).currentIndex
        = ((ops.foldl applyHistOp h).streams.length : Int) - 1 := by
  induction ops with
  | nil => intro h hlen hmax hci; exact ⟨hlen, hmax, hci⟩
  | cons op ops ih =>
    intro h hlen hmax hci
    rcases op with rs | _
    · have hwf := addToHistory_wf h rs hlen hmax
      have hmax2 : (addToHistory h rs).maxHistory = 50 := by
        rw [addToHistory_maxHistory, hmax]
      exact ih (addToHistory h rs) hwf.1 hmax2 hwf.2
    · exact ih (clearHistory h) (by simp [clearHistory]) (by simp [clearHistory, hmax])
        (by simp [clearHistory])

/-- Claim C5: under every sequence of `addToHistory`/`clearHistory`
operations starting from the constructor's history, the store keeps at most
`maxHistory = 50` instructions and the cursor always equals
`streams.length - 1` (so `-1` when empty); and appending more than 50
instructions retains exactly the most recent 50 in original append order
(FIFO eviction of the oldest). -/
theorem history_bound_invariant :
    ∀ ops : List HistOp,
      (ops.foldl applyHistOp initialHistory).streams.length ≤ 50 ∧
      (ops.foldl applyHistOp initialHistory).currentIndex
        = (((ops.foldl applyHistOp initialHistory).streams.length : Int) - 1) ∧
      ∀ rss : List RenderStream, 50 < rss.length →
        (rss.foldl addToHistory (ops.foldl applyHistOp initialHistory)).streams
          = lastN 50 rss := by
  intro ops
  have h0 : initialHistory.streams.length ≤ 50 := by simp [initialHistory]
  have h1 : initialHistory.maxHistory = 50 := rfl
  have h2 : initialHistory.currentIndex = ((initialHistory.streams.length : Int) - 1) := by
    simp [initialHistory]
  have hwf := foldl_applyHistOp_wf ops initialHistory h0 h1 h2
  refine ⟨hwf.1, hwf.2.2, ?_⟩
  intro rss hlen
  rw [foldl_addToHistory_streams rss _ hwf.1 hwf.2.1]
  exact lastN_append_right 50 _ rss (by omega)

/-- Claim C5 witness: the invariant after a concrete operation sequence, and
FIFO retention after appending 51 concrete instructions to the empty store. -/
theorem history_bound_invariant_witness :
    (([HistOp.add dummyStream, HistOp.clearOp].foldl applyHistOp initialHistory).streams.length ≤ 50 ∧
     ([HistOp.add dummyStream, HistOp.clearOp].foldl applyHistOp initialHistory).currentIndex
       = ((([HistOp.add dummyStream, HistOp.clearOp].foldl applyHistOp initialHistory).streams.length : Int) - 1)) ∧
    ((List.replicate 51 dummyStream).foldl addToHistory
        ([HistOp.add dummyStream, HistOp.clearOp].foldl applyHistOp initialHistory)).streams
      = lastN 50 (List.replicate 51 dummyStream) := by
  have h := history_bound_invariant [HistOp.add dummyStream, HistOp.clearOp]
  exact ⟨⟨h.1, h.2.1⟩, h.2.2 (List.replicate 51 dummyStream) (by decide)⟩

/-- Claim C9: whenever `processAIResponse` fails, the controller lands in
`Error` and exactly one recovery timer with the fixed 5000 ms delay is
scheduled, and the timer's callback force-resets the state to `Idle` exactly
when the state is still `Error` when it fires, leaving the state untouched
otherwise. -/
theorem error_recovery_timer :
    ∀ (c : Ctrl) (trans : TransitionFn) (picks : Nat → Nat) (now : Nat)
      (rid : Nat → String) (text : List Char) (e : String),
      ((processAIResponse c trans picks now rid text).result = Except.error e →
        (processAIResponse c trans picks now rid text).timerDelays = [5000] ∧
        (processAIResponse c trans picks now rid text).ctrl.state = RenderStreamState.error) ∧
      (∀ c2 : Ctrl,
        (c2.state = RenderStreamState.error →
          errorRecoveryTick c2 = { c2 with state := RenderStreamState.idle }) ∧
        (c2.state ≠ RenderStreamState.error → errorRecoveryTick c2 = c2)) := by
  intro c trans picks now rid text e
  constructor
  · unfold processAIResponse
    dsimp only
    split
    · intro hres
      simp only at hres
      cases hres
    · intro _
      exact ⟨rfl, rfl⟩
  · intro c2
    constructor
    · intro h
      unfold errorRecoveryTick
      rw [if_pos (by rw [beq_iff_eq]; exact h)]
    · intro h
      unfold errorRecoveryTick
      rw [if_neg (by rw [beq_iff_eq]; exact h)]

/-- Claim C9 witness: a concrete failing run (seamless transitions enabled,
rejecting transition module) schedules exactly the 5000 ms timer, and the
callback resets a still-`Error` controller but leaves an `Idle` one alone. -/
theorem error_recovery_timer_witness :
    ((processAIResponse ⟨RenderStreamState.idle, initialHistory, highPerfConfig⟩
        (failTransition "boom") zeroPicks 0 sidFn "hi".toList).timerDelays = [5000] ∧
     (processAIResponse ⟨RenderStreamState.idle, initialHistory, highPerfConfig⟩
        (failTransition "boom") zeroPicks 0 sidFn "hi".toList).ctrl.state
       = RenderStreamState.error) ∧
    errorRecoveryTick ⟨RenderStreamState.error, initialHistory, defaultConfig⟩
      = ⟨RenderStreamState.idle, initialHistory, defaultConfig⟩ ∧
    errorRecoveryTick createDefaultController = createDefaultController := by
  refine ⟨(error_recovery_timer ⟨RenderStreamState.idle, initialHistory, highPerfConfig⟩
      (failTransition "boom") zeroPicks 0 sidFn "hi".toList "boom").1 rfl, ?_, ?_⟩
  · exact ((error_recovery_timer createDefaultController okTransition zeroPicks 0 sidFn
      [] "x").2 ⟨RenderStreamState.error, initialHistory, defaultConfig⟩).1 rfl
  · exact ((error_recovery_timer createDefaultController okTransition zeroPicks 0 sidFn
      [] "x").2 createDefaultController).2 (by decide)

theorem triggerSeamlessTransition_off (trans : TransitionFn) (c : Ctrl) (rs : RenderStream)
    (hoff : c.config.enableSeamlessTransition = false) :
    triggerSeamlessTransition trans c rs = (c, [CtrlEvent.renderStreamReady rs], Except.ok ()) := by
  unfold triggerSeamlessTransition
  rw [if_pos hoff]

theorem runSegments_off (trans : TransitionFn) (picks : Nat → Nat) (now : Nat)
    (rid : Nat → String) (segs : List SentenceSegment) :
    ∀ (i : Nat) (c : Ctrl), c.config.enableSeamlessTransition = false →
      runSegments trans picks now rid segs i c =
        ({ c with history := (genStreamsAux picks now rid segs i c.history).foldl
                               addToHistory c.history },
         (genStreamsAux picks now rid segs i c.history).map CtrlEvent.renderStreamReady,
         Except.ok ()) := by
  induction segs with
  | nil =>
    intro i c hoff
    rfl
  | cons seg rest ih =>
    intro i c hoff
    simp only [runSegments, genStreamsAux]
    rw [triggerSeamlessTransition_off trans
      ⟨c.state, addToHistory c.history (generate seg c.history (picks i) now (rid i)), c.config⟩
      (generate seg c.history (picks i) now (rid i)) hoff]
    dsimp only
    rw [ih (i + 1)
      ⟨c.state, addToHistory c.history (generate seg c.history (picks i) now (rid i)), c.config⟩
      hoff]
    simp only [List.foldl_cons, List.map_cons]
    rfl

/-- Claim C10: `createDefaultController` disables seamless transition, so a
`processAIResponse` call on such a controller always succeeds with the
transition module bypassed: the event trace consists of the `Processing`
entry, the received notification, one `renderStreamReady` per generated
instruction immediately following its append to history (nothing between
consecutive ready events), and the final return to `Idle` — in particular
no state change into `Transitioning` or `Rendering` ever occurs. -/
theorem default_controller_bypasses_transitions :
    defaultConfig.enableSeamlessTransition = false ∧
    ∀ (st : RenderStreamState) (h : RenderStreamHistory) (trans : TransitionFn)
      (picks : Nat → Nat) (now : Nat) (rid : Nat → String) (text : List Char),
      (processAIResponse ⟨st, h, defaultConfig⟩ trans picks now rid text).result
          = Except.ok () ∧
      (processAIResponse ⟨st, h, defaultConfig⟩ trans picks now rid text).events
          = [CtrlEvent.stateChanged st RenderStreamState.processing,
             CtrlEvent.aiResponseReceived text]
            ++ (genStreamsAux picks now rid (controllerSegment defaultConfig text) 0 h).map
                 CtrlEvent.renderStreamReady
            ++ [CtrlEvent.stateChanged RenderStreamState.processing RenderStreamState.idle,
                CtrlEvent.aiResponseProcessed text] ∧
      (processAIResponse ⟨st, h, defaultConfig⟩ trans picks now rid text).ctrl.state
          = RenderStreamState.idle ∧
      (processAIResponse ⟨st, h, defaultConfig⟩ trans picks now rid text).ctrl.history
          = (genStreamsAux picks now rid (controllerSegment defaultConfig text) 0 h).foldl
              addToHistory h ∧
      (processAIResponse ⟨st, h, defaultConfig⟩ trans picks now rid text).events.countP
          (entersState RenderStreamState.transitioning) = 0 ∧
      (processAIResponse ⟨st, h, defaultConfig⟩ trans picks now rid text).events.countP
          (entersState RenderStreamState.rendering) = 0 := by
  refine ⟨rfl, ?_⟩
  intro st h trans picks now rid text
  have hrun := runSegments_off trans picks now rid (controllerSegment defaultConfig text) 0
    ⟨RenderStreamState.processing, h, defaultConfig⟩ rfl
  have hout : processAIResponse ⟨st, h, defaultConfig⟩ trans picks now rid text =
      { ctrl := ⟨RenderStreamState.idle,
          (genStreamsAux picks now rid (controllerSegment defaultConfig text) 0 h).foldl
            addToHistory h, defaultConfig⟩
        events := [CtrlEvent.stateChanged st RenderStreamState.processing,
             CtrlEvent.aiResponseReceived text]
            ++ (genStreamsAux picks now rid (controllerSegment defaultConfig text) 0 h).map
                 CtrlEvent.renderStreamReady
            ++ [CtrlEvent.stateChanged RenderStreamState.processing RenderStreamState.idle,
                CtrlEvent.aiResponseProcessed text]
        timerDelays := []
        result := Except.ok () } := by
    unfold processAIResponse
    dsimp only
    rw [hrun]
  rw [hout]
  refine ⟨rfl, rfl, rfl, rfl, ?_, ?_⟩
  · simp only [List.countP_append, List.countP_cons, List.countP_nil, List.countP_map]
    have h1 : ∀ (rs : RenderStream),
        (entersState RenderStreamState.transitioning ∘ CtrlEvent.renderStreamReady) rs = false := by
      intro rs; rfl
    rw [List.countP_eq_zero.mpr (by intro rs _; simp [Function.comp, entersState])]
    simp [entersState]
  · simp only [List.countP_append, List.countP_cons, List.countP_nil, List.countP_map]
    rw [List.countP_eq_zero.mpr (by intro rs _; simp [Function.comp, entersState])]
    simp [entersState]

/-- Claim C1 counterexample: with the controller already in `Processing`
(state ≠ `Idle`), a `processAIResponse` call is not rejected: it segments
the text, generates and appends one instruction to the history, emits its
`renderStreamReady`, and moves the state (ending at `Idle`) — the
controller method itself has no state guard. -/
theorem submit_in_processing_not_noop :
    (processAIResponse ⟨RenderStreamState.processing, initialHistory, defaultConfig⟩
        okTransition zeroPicks 0 sidFn "hi".toList).ctrl.history.streams.length = 1 ∧
    (processAIResponse ⟨RenderStreamState.processing, initialHistory, defaultConfig⟩
        okTransition zeroPicks 0 sidFn "hi".toList).ctrl.state = RenderStreamState.idle ∧
    (processAIResponse ⟨RenderStreamState.processing, initialHistory, defaultConfig⟩
        okTransition zeroPicks 0 sidFn "hi".toList).events.countP isReadyEvt = 1 :=
  ⟨rfl, rfl, rfl⟩

/-- Claim C1 amended: the rejection of overlapping submissions lives in
`CameraModeAdapter.handleAIResponse`, guarded by the adapter's own
`isProcessing` flag (set for the duration of a call), not in the
controller: while the flag is set the call returns immediately as a no-op —
nothing is segmented, generated, appended or queued and the controller is
untouched. -/
theorem adapter_busy_submission_noop :
    ∀ (a : Adapter) (trans : TransitionFn) (picks : Nat → Nat) (now : Nat)
      (rid : Nat → String) (text : List Char),
      a.isProcessing = true →
      handleAIResponse a trans picks now rid text = (a, [], Except.ok ()) := by
  intro a trans picks now rid text h
  unfold handleAIResponse
  rw [if_pos h]

/-- Claim C1 witness: a concrete busy adapter rejects a concrete submission
as a no-op. -/
theorem adapter_busy_submission_noop_witness :
    handleAIResponse ⟨true, createDefaultController⟩ okTransition zeroPicks 0 sidFn
      "hi".toList = (⟨true, createDefaultController⟩, [], Except.ok ()) :=
  adapter_busy_submission_noop ⟨true, createDefaultController⟩ okTransition zeroPicks 0
    sidFn "hi".toList rfl

/-- Claim C2 counterexample: in a concrete run whose (only) sub-transition
rejects while the controller is `Transitioning`, the state does become
`Error`, no `renderStreamReady` is emitted, exactly one error event is
emitted with the same error that is re-thrown — but its `context` field is
the fixed string `'processAIResponse'`, not the triggering instruction's id
(`"s0"` here). -/
theorem error_context_not_stream_id :
    (processAIResponse ⟨RenderStreamState.idle, initialHistory, highPerfConfig⟩
        (failTransition "boom") zeroPicks 0 sidFn "hi".toList).result
      = Except.error "boom" ∧
    (processAIResponse ⟨RenderStreamState.idle, initialHistory, highPerfConfig⟩
        (failTransition "boom") zeroPicks 0 sidFn "hi".toList).ctrl.state
      = RenderStreamState.error ∧
    (processAIResponse ⟨RenderStreamState.idle, initialHistory, highPerfConfig⟩
        (failTransition "boom") zeroPicks 0 sidFn "hi".toList).events.filter isErrorEvt
      = [CtrlEvent.errorEvt "boom" "processAIResponse"] ∧
    (processAIResponse ⟨RenderStreamState.idle, initialHistory, highPerfConfig⟩
        (failTransition "boom") zeroPicks 0 sidFn "hi".toList).events.countP isReadyEvt
      = 0 ∧
    (processAIResponse ⟨RenderStreamState.idle, initialHistory, highPerfConfig⟩
        (failTransition "boom") zeroPicks 0 sidFn "hi".toList).ctrl.history.streams.map
        RenderStream.streamId
      = ["s0"] ∧
    "processAIResponse" ≠ "s0" :=
  ⟨rfl, rfl, rfl, rfl, rfl, by decide⟩

theorem trigger_error_shape (trans : TransitionFn) (c : Ctrl) (rs : RenderStream)
    (e : String) (c2 : Ctrl) (evs : List CtrlEvent)
    (h : triggerSeamlessTransition trans c rs = (c2, evs, Except.error e)) :
    c2.state = RenderStreamState.transitioning ∧ c2.config = c.config ∧
    evs = [CtrlEvent.stateChanged c.state RenderStreamState.transitioning] := by
  unfold triggerSeamlessTransition at h
  by_cases hoff : c.config.enableSeamlessTransition = false
  · rw [if_pos hoff] at h
    cases h
  · rw [if_neg hoff] at h
    dsimp only at h
    rcases htr : trans rs c.history with e1 | u
    · rw [htr] at h
      rcases h with ⟨⟩
      exact ⟨rfl, rfl, rfl⟩
    · rw [htr] at h
      cases h

theorem trigger_ok_shape (trans : TransitionFn) (c : Ctrl) (rs : RenderStream)
    (c2 : Ctrl) (evs : List CtrlEvent)
    (h : triggerSeamlessTransition trans c rs = (c2, evs, Except.ok ())) :
    c2.config = c.config ∧
    ((c.config.enableSeamlessTransition = false ∧ evs = [CtrlEvent.renderStreamReady rs] ∧
        c2 = c) ∨
     (c.config.enableSeamlessTransition = true ∧
        evs = [CtrlEvent.stateChanged c.state RenderStreamState.transitioning,
               CtrlEvent.stateChanged RenderStreamState.transitioning RenderStreamState.rendering,
               CtrlEvent.renderStreamReady rs])) := by
  unfold triggerSeamlessTransition at h
  by_cases hoff : c.config.enableSeamlessTransition = false
  · rw [if_pos hoff] at h
    rcases h with ⟨⟩
    exact ⟨rfl, Or.inl ⟨hoff, rfl, rfl⟩⟩
  · rw [if_neg hoff] at h
    dsimp only at h
    rcases htr : trans rs c.history with e1 | u
    · rw [htr] at h
      cases h
    · rw [htr] at h
      rcases h with ⟨⟩
      exact ⟨rfl, Or.inr ⟨eq_true_of_ne_false hoff, rfl⟩⟩

theorem runSegments_error_shape (trans : TransitionFn) (picks : Nat → Nat) (now : Nat)
    (rid : Nat → String) (segs : List SentenceSegment) :
    ∀ (i : Nat) (c : Ctrl) (e : String) (c1 : Ctrl) (evs : List CtrlEvent),
      runSegments trans picks now rid segs i c = (c1, evs, Except.error e) →
      c1.state = RenderStreamState.transitioning ∧
      c1.config = c.config ∧
      evs.filter isErrorEvt = [] ∧
      evs.countP (entersState RenderStreamState.transitioning)
        = evs.countP isReadyEvt + 1 := by
  induction segs with
  | nil =>
    intro i c e c1 evs h
    cases h
  | cons seg rest ih =>
    intro i c e c1 evs h
    simp only [runSegments] at h
    rcases htr : triggerSeamlessTransition trans
        ⟨c.state, addToHistory c.history (generate seg c.history (picks i) now (rid i)),
         c.config⟩
        (generate seg c.history (picks i) now (rid i)) with ⟨c2, evs2, res2⟩
    rcases res2 with e2 | u
    · rw [htr] at h
      dsimp only at h
      rcases h with ⟨⟩
      have hs := trigger_error_shape trans _ _ _ _ _ htr
      refine ⟨hs.1, hs.2.1, ?_, ?_⟩
      · rw [hs.2.2]
        rfl
      · rw [hs.2.2]
        rfl
    · rw [htr] at h
      dsimp only at h
      rcases hrest : runSegments trans picks now rid rest (i + 1) c2 with ⟨c3, evs3, res3⟩
      rw [hrest] at h
      dsimp only at h
      rcases h with ⟨⟩
      have hok := trigger_ok_shape trans _ _ _ _ htr
      rcases hok.2 with ⟨hoff, hevs2, hc2⟩ | ⟨hon, hevs2⟩
      · exfalso
        have hcontra := runSegments_off trans picks now rid rest (i + 1) c2
          (by rw [hc2]; exact hoff)
        rw [hcontra] at hrest
        rcases hrest with ⟨⟩
      · have hr := ih (i + 1) _ _ _ _ hrest
        have ht2 : evs2.countP (entersState RenderStreamState.transitioning) = 1 := by
          rw [hevs2]
          rfl
        have hr2 : evs2.countP isReadyEvt = 1 := by
          rw [hevs2]
          rfl
        have hf2 : evs2.filter isErrorEvt = [] := by
          rw [hevs2]
          rfl
        refine ⟨hr.1, by rw [hr.2.1, hok.1], ?_, ?_⟩
        · rw [List.filter_append, hf2, hr.2.2.1]
          rfl
        · rw [List.countP_append, List.countP_append, ht2, hr2, hr.2.2.2]
          omega

/-- Claim C2 amended: when a sub-transition rejects during `Transitioning`,
`processAIResponse` moves the state to `Error` immediately (the last two
events are the state change from `Transitioning` to `Error` followed by the
error event), emits the failure exactly once as an error event carrying the
same error that is then re-thrown to the caller — with context the fixed
string `'processAIResponse'`, not the instruction's id — and the failing
instruction receives no `renderStreamReady`: one more transition was entered
than ready events were emitted. -/
theorem transition_failure_error_behavior :
    ∀ (c : Ctrl) (trans : TransitionFn) (picks : Nat → Nat) (now : Nat)
      (rid : Nat → String) (text : List Char) (e : String),
      (processAIResponse c trans picks now rid text).result = Except.error e →
      (processAIResponse c trans picks now rid text).ctrl.state = RenderStreamState.error ∧
      (processAIResponse c trans picks now rid text).events.filter isErrorEvt
        = [CtrlEvent.errorEvt e "processAIResponse"] ∧
      (∃ evs, (processAIResponse c trans picks now rid text).events
        = evs ++ [CtrlEvent.stateChanged RenderStreamState.transitioning RenderStreamState.error,
                  CtrlEvent.errorEvt e "processAIResponse"]) ∧
      (processAIResponse c trans picks now rid text).events.countP
          (entersState RenderStreamState.transitioning)
        = (processAIResponse c trans picks now rid text).events.countP isReadyEvt + 1 := by
  intro c trans picks now rid text e
  unfold processAIResponse
  dsimp only
  rcases hrun : runSegments trans picks now rid (controllerSegment c.config text) 0
      ⟨RenderStreamState.processing, c.history, c.config⟩ with ⟨c1, evs1, res1⟩
  rcases res1 with e1 | u
  · dsimp only
    intro hres
    rcases hres with ⟨⟩
    have hr := runSegments_error_shape trans picks now rid _ _ _ _ _ _ hrun
    refine ⟨rfl, ?_, ?_, ?_⟩
    · simp only [List.filter_append, List.filter_cons, List.filter_nil, hr.2.2.1]
      rfl
    · refine ⟨[CtrlEvent.stateChanged c.state RenderStreamState.processing,
               CtrlEvent.aiResponseReceived text] ++ evs1, ?_⟩
      rw [hr.1, List.append_assoc]
    · simp only [List.countP_append, List.countP_cons, List.countP_nil, hr.2.2.2]
      have h1 : entersState RenderStreamState.transitioning
          (CtrlEvent.stateChanged c.state RenderStreamState.processing) = false := rfl
      have h2 : entersState RenderStreamState.transitioning
          (CtrlEvent.stateChanged c1.state RenderStreamState.error) = false := rfl
      simp only [h1, h2]
      rfl
  · dsimp only
    intro hres
    cases hres

/-- Claim C2 witness: the error-behavior theorem applied to a concrete
failing run (seamless transitions enabled, transition module rejecting with
`"fail"`). -/
theorem transition_failure_error_behavior_witness :
    (processAIResponse ⟨RenderStreamState.idle, initialHistory, highPerfConfig⟩
        (failTransition "fail") zeroPicks 0 sidFn "ok".toList).ctrl.state
      = RenderStreamState.error ∧
    (processAIResponse ⟨RenderStreamState.idle, initialHistory, highPerfConfig⟩
        (failTransition "fail") zeroPicks 0 sidFn "ok".toList).events.filter isErrorEvt
      = [CtrlEvent.errorEvt "fail" "processAIResponse"] ∧
    (∃ evs, (processAIResponse ⟨RenderStreamState.idle, initialHistory, highPerfConfig⟩
        (failTransition "fail") zeroPicks 0 sidFn "ok".toList).events
      = evs ++ [CtrlEvent.stateChanged RenderStreamState.transitioning RenderStreamState.error,
                CtrlEvent.errorEvt "fail" "processAIResponse"]) ∧
    (processAIResponse ⟨RenderStreamState.idle, initialHistory, highPerfConfig⟩
        (failTransition "fail") zeroPicks 0 sidFn "ok".toList).events.countP
        (entersState RenderStreamState.transitioning)
      = (processAIResponse ⟨RenderStreamState.idle, initialHistory, highPerfConfig⟩
          (failTransition "fail") zeroPicks 0 sidFn "ok".toList).events.countP isReadyEvt + 1 :=
  transition_failure_error_behavior ⟨RenderStreamState.idle, initialHistory, highPerfConfig⟩
    (failTransition "fail") zeroPicks 0 sidFn "ok".toList "fail" rfl

theorem nonWS_append (a b : List Char) : nonWS (a ++ b) = nonWS a ++ nonWS b :=
  List.filter_append _ _

theorem nonWS_dropWhile_ws (l : List Char) :
    nonWS (l.dropWhile isWhitespaceChar) = nonWS l := by
  induction l with
  | nil => rfl
  | cons c cs ih =>
    by_cases h : isWhitespaceChar c = true
    · rw [List.dropWhile_cons, if_pos h, ih]
      unfold nonWS
      rw [List.filter_cons, if_neg (by simp [h])]
    · rw [List.dropWhile_cons, if_neg h]

theorem nonWS_reverse (l : List Char) : nonWS l.reverse = (nonWS l).reverse :=
  List.filter_reverse _ _

theorem nonWS_trim (l : List Char) : nonWS (trimList l) = nonWS l := by
  unfold trimList
  rw [nonWS_reverse, nonWS_dropWhile_ws, nonWS_reverse, List.reverse_reverse,
    nonWS_dropWhile_ws]

theorem flatten_splitGo : ∀ (fuel : Nat) (l : List Char), l.length ≤ fuel →
    (splitIntoSentencesGo fuel l).flatten = l.dropWhile isHardBoundary := by
  intro fuel
  induction fuel with
  | zero =>
    intro l hl
    have h0 : l = [] := List.length_eq_zero.mp (Nat.le_zero.mp hl)
    subst h0
    rfl
  | succ fuel ih =>
    intro l hl
    rcases l with _ | ⟨c, cs⟩
    · rfl
    · have hlcs : cs.length ≤ fuel := by
        simp only [List.length_cons] at hl
        omega
      by_cases hc : isHardBoundary c = true
      · have hstep : splitIntoSentencesGo (fuel + 1) (c :: cs) = splitIntoSentencesGo fuel cs := by
          simp [splitIntoSentencesGo, hc]
        rw [hstep, ih cs hlcs, List.dropWhile_cons, if_pos hc]
      · have hpb : (fun x => !isHardBoundary x) c = true := by
          simp [Bool.eq_false_iff.mpr hc]
        have hstep : splitIntoSentencesGo (fuel + 1) (c :: cs) =
            ((c :: cs).takeWhile (fun x => !isHardBoundary x)
              ++ ((c :: cs).dropWhile (fun x => !isHardBoundary x)).takeWhile isHardBoundary)
            :: splitIntoSentencesGo fuel
                 (((c :: cs).dropWhile (fun x => !isHardBoundary x)).dropWhile isHardBoundary) := by
          simp only [splitIntoSentencesGo, hc]
          rfl
        have hlen : (((c :: cs).dropWhile (fun x => !isHardBoundary x)).dropWhile
            isHardBoundary).length ≤ fuel := by
          have h1 := dropWhile_length_le isHardBoundary
            ((c :: cs).dropWhile (fun x => !isHardBoundary x))
          have h2 : ((c :: cs).dropWhile (fun x => !isHardBoundary x)).length ≤ cs.length := by
            rw [List.dropWhile_cons, if_pos hpb]
            exact dropWhile_length_le _ cs
          omega
        rw [hstep, List.flatten_cons, ih _ hlen, List.dropWhile_idempotent,
          List.append_assoc, List.takeWhile_append_dropWhile,
          List.takeWhile_append_dropWhile, List.dropWhile_cons, if_neg hc]

theorem flatten_filter_ne (L : List (List Char)) :
    (L.filter (fun s => s.length != 0)).flatten = L.flatten := by
  induction L with
  | nil => rfl
  | cons s L ih =>
    rw [List.filter_cons]
    by_cases h : (s.length != 0) = true
    · rw [if_pos h, List.flatten_cons, List.flatten_cons, ih]
    · rw [if_neg h]
      have hs : s = [] := by
        have h0 : s.length = 0 := by simpa using h
        exact List.length_eq_zero.mp h0
      subst hs
      rw [ih, List.flatten_cons, List.nil_append]

theorem nonWS_flatten_map_trim (L : List (List Char)) :
    nonWS ((L.map trimList).flatten) = nonWS L.flatten := by
  induction L with
  | nil => rfl
  | cons s L ih =>
    rw [List.map_cons, List.flatten_cons, List.flatten_cons, nonWS_append, nonWS_append,
      nonWS_trim, ih]

theorem trim_isEmpty_nonWS (acc : List Char) (h : (trimList acc).isEmpty = true) :
    nonWS acc = [] := by
  have h0 : trimList acc = [] := List.isEmpty_iff.mp h
  have h1 := nonWS_trim acc
  rw [h0] at h1
  exact h1.symm

theorem nonWS_splitLongChunks : ∀ (cs acc : List Char),
    nonWS ((splitLongChunks cs acc).flatten) = nonWS (acc ++ cs) := by
  intro cs
  induction cs with
  | nil =>
    intro acc
    simp only [splitLongChunks]
    by_cases h : (trimList acc).isEmpty = true
    · rw [if_pos h, List.append_nil, trim_isEmpty_nonWS acc h]
      rfl
    · rw [if_neg h, List.append_nil]
      show nonWS (acc ++ [].flatten) = nonWS acc
      rw [List.flatten_nil, List.append_nil]
  | cons c rest ih =>
    intro acc
    simp only [splitLongChunks]
    by_cases h : punctuationMarks.contains c ∧ minSegmentLength ≤ (acc ++ [c]).length
    · rw [if_pos h, List.flatten_cons, nonWS_append, ih [], List.nil_append,
        ← nonWS_append, List.append_assoc, List.singleton_append]
    · rw [if_neg h, ih (acc ++ [c]), List.append_assoc, List.singleton_append]

theorem nonWS_segmentText_flatten (t : List Char) :
    nonWS (((segmentText t).map SentenceSegment.text).flatten)
      = nonWS ((splitIntoSentences t).flatten) := by
  unfold segmentText
  generalize splitIntoSentences t = L
  induction L with
  | nil => rfl
  | cons s L ih =>
    rw [List.flatMap_cons, List.map_append, List.flatten_append, nonWS_append, ih,
      List.flatten_cons, nonWS_append]
    congr 1
    dsimp only
    by_cases h : maxSegmentLength < s.length
    · rw [if_pos h]
      unfold splitLongSentence
      rw [List.map_map]
      have hid : (SentenceSegment.text ∘ fun u => mkSegment u (analyzeEmotion s))
          = fun u => u := rfl
      rw [hid, List.map_id']
      have h2 := nonWS_splitLongChunks s []
      rw [List.nil_append] at h2
      exact h2
    · rw [if_neg h]
      show nonWS (s ++ [].flatten) = nonWS s
      rw [List.flatten_nil, List.append_nil]

/-- Claim C4 counterexample: for the input `"。a"` the concatenated segment
texts are `"a"` — the leading hard-boundary character `。` (which is not
whitespace) is dropped by the sentence-candidate regex, so the
non-whitespace characters of the input are not reconstructed. -/
theorem segment_text_loses_leading_boundary :
    nonWS (((segmentText "。a".toList).map SentenceSegment.text).flatten)
      ≠ nonWS "。a".toList := by
  decide

/-- Claim C4 amended: concatenating the segment texts of `segment(text)`
reconstructs, up to whitespace, exactly the original text with its maximal
leading run of hard-boundary characters (`。！？；` and newline) removed —
only such a leading run can be lost, and no character is ever duplicated. -/
theorem segment_reconstructs_after_leading_boundary (t : List Char) :
    nonWS (((segmentText t).map SentenceSegment.text).flatten)
      = nonWS (t.dropWhile isHardBoundary) := by
  rw [nonWS_segmentText_flatten]
  unfold splitIntoSentences
  rw [flatten_filter_ne, nonWS_flatten_map_trim]
  unfold splitIntoSentencesRaw
  rw [flatten_splitGo t.length t (Nat.le_refl _)]

/-- Claim C3 counterexample: `"aaaaaaaaaaaa，bbb"` contains a run of 12
characters terminated by the soft separator `，` (at index 12) followed by
more text, yet `segment` returns a single segment spanning the whole input:
the soft separator induces no boundary in batch segmentation. -/
theorem soft_separator_ignored_in_batch :
    (segmentText "aaaaaaaaaaaa，bbb".toList).map SentenceSegment.text
      = ["aaaaaaaaaaaa，bbb".toList] ∧
    "aaaaaaaaaaaa，bbb".toList.getD 12 ' ' = '，' ∧
    "aaaaaaaaaaaa，bbb".toList.length = 16 :=
  ⟨rfl, rfl, rfl⟩

theorem find?_range_reverse_isSome (p : Nat → Bool) (k : Nat) (j : Nat)
    (hj : j < k + 1) (hp : p j = true) :
    ((List.range (k + 1)).reverse.find? p).isSome = true :=
  List.find?_isSome.mpr ⟨j, List.mem_reverse.mpr (List.mem_range.mpr hj), hp⟩

/-- Claim C3 amended: the batch segmenter splits only at the hard boundary
set `{。！？；\n}` — every raw sentence candidate is a nonempty run of
non-boundary characters followed by a (possibly empty) run of hard-boundary
characters, so soft separators never end a candidate; the ≥10-character
soft-separator rule exists only in the streaming `SmartSentenceSegmenter`,
whose soft set is `{,、}`: a buffer of `.`-characters with no hard
terminator but a soft terminator at some index `j ≥ 10` produces a match of
length at least 11 ending in a soft separator. -/
theorem hard_only_batch_soft_only_streaming :
    (∀ (fuel : Nat) (cs s : List Char),
      s ∈ splitIntoSentencesGo fuel cs →
      ∃ a b, s = a ++ b ∧ a ≠ [] ∧
        (∀ x ∈ a, isHardBoundary x = false) ∧
        (∀ x ∈ b, isHardBoundary x = true)) ∧
    (∀ buf : List Char,
      (∀ x ∈ buf, isDotChar x = true ∧ isHardTerm x = false) →
      ∀ j : Nat, 10 ≤ j → j < buf.length → isSoftTerm (buf.getD j ' ') = true →
      ∃ n, extractMatchLen buf = some n ∧ 11 ≤ n ∧
        isSoftTerm (buf.getD (n - 1) ' ') = true) := by
  constructor
  · intro fuel
    induction fuel with
    | zero =>
      intro cs s hs
      simp [splitIntoSentencesGo] at hs
    | succ fuel ih =>
      intro cs s hs
      rcases cs with _ | ⟨c, cs⟩
      · simp [splitIntoSentencesGo] at hs
      · by_cases hc : isHardBoundary c = true
        · rw [show splitIntoSentencesGo (fuel + 1) (c :: cs) = splitIntoSentencesGo fuel cs
              from by simp [splitIntoSentencesGo, hc]] at hs
          exact ih cs s hs
        · have hpb : (fun x => !isHardBoundary x) c = true := by
            simp [Bool.eq_false_iff.mpr hc]
          rw [show splitIntoSentencesGo (fuel + 1) (c :: cs) =
              ((c :: cs).takeWhile (fun x => !isHardBoundary x)
                ++ ((c :: cs).dropWhile (fun x => !isHardBoundary x)).takeWhile isHardBoundary)
              :: splitIntoSentencesGo fuel
                   (((c :: cs).dropWhile (fun x => !isHardBoundary x)).dropWhile isHardBoundary)
              from by simp only [splitIntoSentencesGo, hc]; rfl] at hs
          rcases List.mem_cons.mp hs with hs | hs
          · refine ⟨(c :: cs).takeWhile (fun x => !isHardBoundary x),
              ((c :: cs).dropWhile (fun x => !isHardBoundary x)).takeWhile isHardBoundary,
              hs, ?_, ?_, ?_⟩
            · rw [List.takeWhile_cons, if_pos hpb]
              exact List.cons_ne_nil c _
            · intro x hx
              have := List.mem_takeWhile_imp hx
              simpa using this
            · intro x hx
              exact List.mem_takeWhile_imp hx
          · exact ih _ s hs
  · intro buf hbuf j hj10 hjlen hsoft
    have hk : (buf.takeWhile isDotChar).length = buf.length := by
      rw [List.takeWhile_eq_self_iff.mpr (fun x hx => (hbuf x hx).1)]
    have halt1 : matchEndAlt1 buf = none := by
      unfold matchEndAlt1
      dsimp only
      rw [List.find?_eq_none]
      intro x hx hpred
      simp only [Bool.and_eq_true, decide_eq_true_eq, bne_iff_ne, ne_eq] at hpred
      have hxlen : x < buf.length := hpred.1.2
      have hmem : buf.getD x ' ' ∈ buf := by
        rw [List.getD_eq_getElem buf ' ' hxlen]
        exact List.getElem_mem hxlen
      have hcontra := (hbuf _ hmem).2
      rw [hpred.2] at hcontra
      cases hcontra
    have hsome : (matchEndAlt2 buf).isSome = true := by
      unfold matchEndAlt2
      dsimp only
      refine find?_range_reverse_isSome _ _ j (by omega) ?_
      simp only [Bool.and_eq_true, decide_eq_true_eq]
      exact ⟨⟨hj10, hjlen⟩, hsoft⟩
    obtain ⟨j2, hj2⟩ := Option.isSome_iff_exists.mp hsome
    have hp2 : (10 ≤ j2 ∧ j2 < buf.length) ∧ isSoftTerm (buf.getD j2 ' ') = true := by
      unfold matchEndAlt2 at hj2
      dsimp only at hj2
      have hfind := List.find?_some hj2
      simpa only [Bool.and_eq_true, decide_eq_true_eq] using hfind
    refine ⟨j2 + 1, ?_, by omega, ?_⟩
    · unfold extractMatchLen
      rw [halt1, hj2]
      rfl
    · simpa only [Nat.add_sub_cancel] using hp2.2

/-- Claim C3 witness: the batch decomposition at the concrete candidate
`"ab。"`, and the streaming soft-separator match on the concrete buffer of
12 `.`-characters followed by an ASCII comma. -/
theorem hard_only_batch_soft_only_streaming_witness :
    (∃ a b, "ab。".toList = a ++ b ∧ a ≠ [] ∧
      (∀ x ∈ a, isHardBoundary x = false) ∧
      (∀ x ∈ b, isHardBoundary x = true)) ∧
    (∃ n, extractMatchLen "aaaaaaaaaaaa,".toList = some n ∧ 11 ≤ n ∧
      isSoftTerm ("aaaaaaaaaaaa,".toList.getD (n - 1) ' ') = true) :=
  ⟨hard_only_batch_soft_only_streaming.1 3 "ab。".toList "ab。".toList (by decide),
   hard_only_batch_soft_only_streaming.2 "aaaaaaaaaaaa,".toList (by decide) 12
     (by decide) (by decide) (by decide)⟩

/-- Claim C6 counterexample: on a fresh segmenter, the chunk `"你好；"` ends
in `；` — a hard boundary of the §4.1 rule (and of the batch segmenter) —
yet `processNewContent` emits nothing and retains the whole completed
sentence in its buffer: the streaming extraction regex recognises neither
`；` nor the full-width `，` as a terminator. -/
theorem streaming_misses_spec_boundary :
    isHardBoundary '；' = true ∧
    processNewContent initSegmenter "你好；".toList
      = ([], ⟨"你好；".toList, "你好；".toList⟩) :=
  ⟨rfl, rfl⟩

theorem getLast?_take_getD (l : List Char) (j : Nat) (hj : j < l.length) :
    (l.take (j + 1)).getLast? = some (l.getD j ' ') := by
  rw [List.getLast?_eq_getElem?]
  have hlen : (l.take (j + 1)).length = j + 1 := by
    rw [List.length_take]
    omega
  rw [hlen]
  simp only [Nat.add_sub_cancel]
  rw [List.getElem?_take, if_pos (by omega), List.getD_eq_getElem l ' ' hj]
  exact List.getElem?_eq_getElem hj

theorem extractMatchLen_some (buf : List Char) (n : Nat)
    (h : extractMatchLen buf = some n) :
    1 ≤ n ∧ n ≤ buf.length ∧
    (isHardTerm (buf.getD (n - 1) ' ') = true ∨
      (11 ≤ n ∧ isSoftTerm (buf.getD (n - 1) ' ') = true)) := by
  unfold extractMatchLen at h
  rcases h1 : matchEndAlt1 buf with _ | j
  · rw [h1] at h
    dsimp only at h
    rcases h2 : matchEndAlt2 buf with _ | j
    · rw [h2] at h
      cases h
    · rw [h2] at h
      simp only [Option.map_some'] at h
      have hn : j + 1 = n := by injection h
      unfold matchEndAlt2 at h2
      dsimp only at h2
      have hp : (10 ≤ j ∧ j < buf.length) ∧ isSoftTerm (buf.getD j ' ') = true := by
        simpa only [Bool.and_eq_true, decide_eq_true_eq] using List.find?_some h2
      subst hn
      refine ⟨by omega, by omega, Or.inr ⟨by omega, ?_⟩⟩
      simpa only [Nat.add_sub_cancel] using hp.2
  · rw [h1] at h
    dsimp only at h
    have hn : j + 1 = n := by injection h
    unfold matchEndAlt1 at h1
    dsimp only at h1
    have hp : (¬j = 0 ∧ j < buf.length) ∧ isHardTerm (buf.getD j ' ') = true := by
      simpa only [Bool.and_eq_true, decide_eq_true_eq, bne_iff_ne, ne_eq]
        using List.find?_some h1
    subst hn
    refine ⟨by omega, ?_, Or.inl ?_⟩
    · have := hp.1.2
      omega
    · simpa only [Nat.add_sub_cancel] using hp.2

theorem extractCompleteSentences_shape (buf : List Char) :
    (extractCompleteSentences buf).1.length ≤ 1 ∧
    ∀ s ∈ (extractCompleteSentences buf).1,
      s ≠ [] ∧
      (∃ t, s.getLast? = some t ∧
        (isHardTerm t = true ∨ (11 ≤ s.length ∧ isSoftTerm t = true))) ∧
      ∃ rest, s ++ rest = buf ∧ (extractCompleteSentences buf).2 = trimStartList rest := by
  unfold extractCompleteSentences
  rcases hm : extractMatchLen buf with _ | n
  · refine ⟨by simp, ?_⟩
    intro s hs
    simp at hs
  · dsimp only
    refine ⟨by simp, ?_⟩
    intro s hs
    rw [List.mem_singleton] at hs
    subst hs
    obtain ⟨hn1, hnlen, hterm⟩ := extractMatchLen_some buf n hm
    have hlentake : (buf.take n).length = n := by
      rw [List.length_take]
      omega
    refine ⟨?_, ?_, buf.drop n, List.take_append_drop n buf, rfl⟩
    · intro hcon
      rw [hcon] at hlentake
      simp at hlentake
      omega
    · have hn' : n - 1 < buf.length := by omega
      have heq : buf.take n = buf.take ((n - 1) + 1) := by
        congr 1
        omega
      rw [heq, getLast?_take_getD buf (n - 1) hn']
      refine ⟨buf.getD (n - 1) ' ', rfl, ?_⟩
      rcases hterm with h | ⟨h11, hsoft⟩
      · exact Or.inl h
      · refine Or.inr ⟨?_, hsoft⟩
        rw [← heq, hlentake]
        exact h11

/-- Claim C6 amended: each `processNewContent` call emits at most one
sentence; an emitted sentence is a nonempty prefix of the concatenation of
the retained buffer and the new suffix of the content, ending either in a
character of the streaming hard-terminator class `{\n ~ 。 ！ ． ？}` or,
with length at least 11, in a streaming soft separator `{, 、}`; the buffer
afterwards holds exactly the remainder with leading whitespace removed (so
sentences completed under the other boundary rules, or lying beyond the
single greedy match, stay buffered for a later call). -/
theorem processNewContent_emits_one_terminated :
    ∀ (st : SegmenterState) (content : List Char),
      (processNewContent st content).1.length ≤ 1 ∧
      ∀ s ∈ (processNewContent st content).1,
        s ≠ [] ∧
        (∃ t, s.getLast? = some t ∧
          (isHardTerm t = true ∨ (11 ≤ s.length ∧ isSoftTerm t = true))) ∧
        ∃ rest,
          s ++ rest = st.sentenceBuffer ++ content.drop st.lastProcessedContent.length ∧
          (processNewContent st content).2.sentenceBuffer = trimStartList rest := by
  intro st content
  unfold processNewContent
  dsimp only
  split
  · exact ⟨by simp, by intro s hs; simp at hs⟩
  · split
    · exact ⟨by simp, by intro s hs; simp at hs⟩
    · split
      · exact ⟨by simp, by intro s hs; simp at hs⟩
      · rcases hex : extractCompleteSentences
            (st.sentenceBuffer ++ content.drop st.lastProcessedContent.length) with ⟨ss, rest2⟩
        have hshape := extractCompleteSentences_shape
          (st.sentenceBuffer ++ content.drop st.lastProcessedContent.length)
        rw [hex] at hshape
        dsimp only at hshape
        dsimp only
        refine ⟨hshape.1, ?_⟩
        intro s hs
        obtain ⟨hne, hterm, rest, happ, hrest⟩ := hshape.2 s hs
        exact ⟨hne, hterm, rest, happ, hrest⟩

/-- Claim C6 witness: the per-call contract applied to the concrete chunk
`"你好。"` on a fresh segmenter, which emits exactly the sentence
`"你好。"`. -/
theorem processNewContent_emits_one_terminated_witness :
    "你好。".toList ≠ [] ∧
    (∃ t, "你好。".toList.getLast? = some t ∧
      (isHardTerm t = true ∨ (11 ≤ "你好。".toList.length ∧ isSoftTerm t = true))) ∧
    ∃ rest,
      "你好。".toList ++ rest
        = initSegmenter.sentenceBuffer
          ++ "你好。".toList.drop initSegmenter.lastProcessedContent.length ∧
      (processNewContent initSegmenter "你好。".toList).2.sentenceBuffer
        = trimStartList rest :=
  (processNewContent_emits_one_terminated initSegmenter "你好。".toList).2
    "你好。".toList (by decide)
